import Mathlib

/-!
Verification of the Cognitax statement-ingestion and dashboard pipeline.

The repository is a tax-management web application: the React dashboard
(`frontend/src/components/EnhancedDashboard.js`, `Dashboard.js`) uploads
bank-statement PDFs to a FastAPI backend, which extracts text, parses
transactions, classifies them, and computes tax estimates.

Monetary amounts are modelled as exact integers in fixed-point currency
units (the application renders every amount with exactly two fraction
digits, so an integer count of hundredths represents the displayed values
exactly; the specification states its arithmetic properties for exact
sums).  String operations of the JavaScript source (`split`, `join`,
`toLowerCase`, `endsWith`) are modelled by structurally recursive
functions over the character list of a `String`, so that every definition
evaluates inside the kernel.
-/

namespace Cognitax

/-! ## Basic string machinery (models of the JavaScript string operations) -/

/-- Model of JavaScript `s.split(sep)` for a one-element separator:
splits a list at every occurrence of `sep`, keeping empty chunks, so
that `splitSep c l` always has `(count of c) + 1` chunks. -/
def splitSep {α : Type} [DecidableEq α] (sep : α) : List α → List (List α)
  | [] => [[]]
  | c :: cs =>
    match splitSep sep cs with
    | [] => if c = sep then [[], []] else [[c]]
    | g :: gs => if c = sep then [] :: g :: gs else (c :: g) :: gs

/-- Model of JavaScript `parts.join(sep)` for a one-character separator. -/
def joinSep (sep : Char) : List (List Char) → List Char
  | [] => []
  | [g] => g
  | g :: gs => g ++ sep :: joinSep sep gs

/-- Lower-cases a string character by character; model of JavaScript
`s.toLowerCase()` on the ASCII file names and descriptions the app
handles. -/
def lowerString (s : String) : List Char :=
  s.data.map Char.toLower

/-- Model of JavaScript `l.endsWith(suffixChars)` on character lists. -/
def endsWithChars (l suffixChars : List Char) : Bool :=
  l.drop (l.length - suffixChars.length) == suffixChars

/-- Numeric value of a decimal digit character, if it is one. -/
def charDigit (c : Char) : Option Nat :=
  if '0' ≤ c ∧ c ≤ '9' then some (c.toNat - 48) else none

/-- Accumulating decimal reader over a character list; `none` as soon as a
non-digit appears. -/
def digitsVal (acc : Nat) : List Char → Option Nat
  | [] => some acc
  | c :: cs =>
    match charDigit c with
    | none => none
    | some d => digitsVal (acc * 10 + d) cs

/-- Model of numeric parsing of one field: a non-empty all-digit chunk
denotes its decimal value, anything else is not a number. -/
def parseNatChars (l : List Char) : Option Nat :=
  if l.isEmpty then none else digitsVal 0 l

/-! ## Data model

Mirrors the records the dashboard receives from the backend
(`EnhancedDashboard.js` reads `transaction_type`, `amount`, `date`,
`category`, `mode`, `description` off each transaction, and
`gst_amount`, `itr_amount`, `tds_amount`, `estimated_turnover` off
`analytics.latest_tax`). -/

/-- The binary transaction direction; the source stores the strings
`"credit"` and `"debit"` and tests `txn.transaction_type === 'credit'`. -/
inductive TType where
  | credit
  | debit
  deriving DecidableEq, Repr

/-- One persisted transaction as the dashboard consumes it.  `amount` is
the exact fixed-point currency value (always non-negative in the data
model; the sign lives in `transaction_type`). -/
structure Transaction where
  date : String
  description : String
  category : String
  mode : String
  amount : ℤ
  transaction_type : TType
  deriving DecidableEq, Repr

/-- The `latest_tax` object of the `/api/analytics` response as read by
both dashboard components. -/
structure LatestTax where
  gst_amount : ℤ
  itr_amount : ℤ
  tds_amount : ℤ
  estimated_turnover : ℤ
  deriving DecidableEq, Repr

/-! ## C4 — dashboard "Tax Due" KPI

`EnhancedDashboard.js` line 665 and `Dashboard.js` line 198 both render
the Tax Due card as
`analytics.latest_tax ? ₹(gst_amount + itr_amount) : '₹0.00'`. -/

/-- Numeric value shown on the "Tax Due" KPI card, from the source
expression `analytics.latest_tax ? (latest_tax.gst_amount +
latest_tax.itr_amount) : 0.00`. -/
def taxDueDisplay (latest : Option LatestTax) : ℤ :=
  match latest with
  | some t => t.gst_amount + t.itr_amount
  | none => 0

/-! ## C5 — PDF-only file selection

`EnhancedDashboard.js` `handleFileSelect` (lines 177–195) filters the
chosen files by `file.name.toLowerCase().endsWith('.pdf')`; when no file
passes it returns without touching `pendingFiles`, otherwise it appends
the accepted files.  `handleFileUpload` (242–268, and `Dashboard.js`
64–90) rejects a single non-PDF file before any request is made. -/

/-- A file chosen in the file-selection dialog (`e.target.files`). -/
structure SelFile where
  name : String
  size : Nat
  deriving DecidableEq, Repr

/-- The acceptance test of both upload handlers:
`file.name.toLowerCase().endsWith('.pdf')`. -/
def isPdfName (name : String) : Bool :=
  endsWithChars (lowerString name) ".pdf".data

/-- An entry of the `pendingFiles` list (the source also stores a random
`id` and a formatted size string, which no claim depends on; the `file`
field is the payload later posted to the upload endpoint). -/
structure PendingFile where
  file : SelFile
  name : String
  deriving DecidableEq, Repr

/-- Mapping from an accepted file to the pending entry pushed by
`handleFileSelect` (`{ file, name: file.name, ... }`). -/
def toPendingFile (f : SelFile) : PendingFile :=
  ⟨f, f.name⟩

/-- State update of `handleFileSelect`: filter to `.pdf` names, keep the
previous list unchanged when nothing passes, otherwise append the
accepted files (`setPendingFiles(prev => [...prev, ...newFiles])`). -/
def handleFileSelect (files : List SelFile) (prev : List PendingFile) :
    List PendingFile :=
  let pdfFiles := files.filter (fun f => isPdfName f.name)
  if pdfFiles.isEmpty then prev
  else prev ++ pdfFiles.map toPendingFile

/-- The file `handleFileUpload` posts to `/api/upload-pdf`, if any: the
single selected file when present and named `.pdf`, nothing otherwise. -/
def handleFileUploadSent (file : Option SelFile) : Option SelFile :=
  match file with
  | none => none
  | some f => if isPdfName f.name then some f else none

/-! ## C1 — bulk delete of selected transactions

`EnhancedDashboard.js` `handleBulkDelete` (lines 528–552): after an empty
check and a `window.confirm`, it runs
`await Promise.all(selectedTransactions.map(id => axios.delete(...)))`
inside one `try`.  `Promise.all` issues every DELETE request (so each id
is attempted and a failure of one does not cancel the others on the
server), but it rejects as soon as any request fails: the `catch` branch
then shows the generic toast `'Failed to delete transactions'` and leaves
the selection untouched, while the success branch shows
`Deleted ${selectedTransactions.length} transaction(s)` and clears the
selection. -/

/-- What `handleBulkDelete` tells its caller: nothing selected, all
deletes succeeded (the toast carries the selected count), or the generic
failure toast of the `catch` branch, which carries no counts. -/
inductive BulkDeleteReport where
  | noneSelected
  | cancelled
  | deletedAll (n : Nat)
  | failedGeneric
  deriving DecidableEq, Repr

/-- Observable outcome of one `handleBulkDelete` run. `requested` are the
ids for which a DELETE request is issued (all of them, via
`Promise.all`); `serverDeleted` are the ids whose delete succeeds on the
server; `newSelected` is the selection state afterwards. -/
structure BulkDeleteOutcome where
  requested : List Nat
  serverDeleted : List Nat
  report : BulkDeleteReport
  newSelected : List Nat
  deriving DecidableEq, Repr

/-- Embedding of `handleBulkDelete`.  `confirmed` is the result of the
`window.confirm` dialog and `ok id` says whether the DELETE of `id`
succeeds (e.g. `false` for an id that no longer exists).  All requests
are issued regardless of individual outcomes; the report and the
selection update depend only on whether every request succeeded. -/
def handleBulkDelete (confirmed : Bool) (selected : List Nat)
    (ok : Nat → Bool) : BulkDeleteOutcome :=
  if selected.isEmpty then ⟨[], [], .noneSelected, selected⟩
  else if !confirmed then ⟨[], [], .cancelled, selected⟩
  else if selected.all ok then
    ⟨selected, selected.filter ok, .deletedAll selected.length, []⟩
  else
    ⟨selected, selected.filter ok, .failedGeneric, selected⟩

/-- The per-outcome (successes, failures) count a report conveys to the
caller: only the all-success toast carries a count at all. -/
def reportedCounts : BulkDeleteReport → Option (Nat × Nat)
  | .deletedAll n => some (n, 0)
  | _ => none

/-! ## C10 — upload-all over the pending-files list

`EnhancedDashboard.js` `handleUploadAll` (lines 204–240): an empty check,
then a sequential `for (const fileItem of pendingFiles)` loop posting
each file once and incrementing `successCount` or `failCount`; afterwards
the pending list is cleared exactly when `successCount > 0`. -/

/-- Result of the upload loop body: success count, failure count, and the
posted files in request order. -/
def uploadLoop (ok : PendingFile → Bool) :
    List PendingFile → Nat × Nat × List PendingFile
  | [] => (0, 0, [])
  | f :: fs =>
    let r := uploadLoop ok fs
    if ok f then (r.1 + 1, r.2.1, f :: r.2.2) else (r.1, r.2.1 + 1, f :: r.2.2)

/-- Observable outcome of one `handleUploadAll` run. -/
structure UploadAllOutcome where
  submitted : List PendingFile
  successCount : Nat
  failCount : Nat
  newPending : List PendingFile
  deriving DecidableEq, Repr

/-- Embedding of `handleUploadAll`: nothing happens on an empty list;
otherwise every pending file is posted exactly once and the list is
cleared if and only if at least one upload succeeded. -/
def handleUploadAll (pending : List PendingFile) (ok : PendingFile → Bool) :
    UploadAllOutcome :=
  if pending.isEmpty then ⟨[], 0, 0, pending⟩
  else
    let r := uploadLoop ok pending
    ⟨r.2.2, r.1, r.2.1, if r.1 > 0 then [] else pending⟩

/-! ## C3 — analytics aggregates and the monthly trend

The three totals live in the `/api/analytics` response; the dashboard
additionally recomputes a per-month aggregate in `getMonthlyTrendData`
(`EnhancedDashboard.js` lines 466–488). -/

/-- Modelled from the spec: the backend analytics aggregates
(`total_income`, `total_expenses` of the `/api/analytics` response; the
backend `server.py` is not in the repository snapshot).  Per §4.4,
`total_income` is the sum of credit amounts. -/
def total_income (txns : List Transaction) : ℤ :=
  ((txns.filter (fun t => t.transaction_type == TType.credit)).map
    (fun t => t.amount)).sum

/-- Modelled from the spec: `total_expenses` is the sum of debit
amounts (backend `server.py` not in the snapshot). -/
def total_expenses (txns : List Transaction) : ℤ :=
  ((txns.filter (fun t => t.transaction_type == TType.debit)).map
    (fun t => t.amount)).sum

/-- Modelled from the spec: `net_cash_flow` = income − expenses (backend
`server.py` not in the snapshot). -/
def net_cash_flow (txns : List Transaction) : ℤ :=
  total_income txns - total_expenses txns

/-- Month key extracted by `getMonthlyTrendData` from a transaction date:
the source computes `new Date(txn.date.split('/').reverse().join('-'))`,
skips the transaction when that is `NaN`, and keys the bucket by
`` `${year}-${month}` ``.  JavaScript `Date` parsing of the reversed
string is modelled as strict numeric `year-month-day` parsing: exactly
three all-digit components with a real month and day, anything else being
the `NaN` case.  The key is the (year, month) pair, which is in bijection
with the `YYYY-MM` key strings the source uses. -/
def jsMonthKey (date : String) : Option (Nat × Nat) :=
  match (splitSep '/' date.data).reverse with
  | [y, m, d] =>
    match parseNatChars y, parseNatChars m, parseNatChars d with
    | some yn, some mn, some dn =>
      if 1 ≤ mn ∧ mn ≤ 12 ∧ 1 ≤ dn ∧ dn ≤ 31 then some (yn, mn) else none
    | _, _, _ => none
  | _ => none

/-- One bucket of the monthly trend (`{ month, income, expenses }`). -/
structure MonthEntry where
  month : Nat × Nat
  income : ℤ
  expenses : ℤ
  deriving DecidableEq, Repr

/-- Accumulation of one transaction into its month bucket, the source's
`monthlyData[monthKey].income += txn.amount` (credit) or
`... .expenses += txn.amount` (any other type). -/
def applyTxn (t : Transaction) (e : MonthEntry) : MonthEntry :=
  if t.transaction_type == TType.credit then
    { e with income := e.income + t.amount }
  else
    { e with expenses := e.expenses + t.amount }

/-- Processing of one transaction by the `forEach` body of
`getMonthlyTrendData`: skip when the date does not parse, create the
zero-initialized month bucket on first sight, then add the amount to
`income` when the type is `'credit'` and to `expenses` otherwise. -/
def trendStep (acc : List MonthEntry) (t : Transaction) : List MonthEntry :=
  match jsMonthKey t.date with
  | none => acc
  | some k =>
    if acc.any (fun e => e.month == k) then
      acc.map (fun e => if e.month == k then applyTxn t e else e)
    else
      acc ++ [applyTxn t ⟨k, 0, 0⟩]

/-- Lexicographic comparison on (year, month) keys, the order induced by
`a.month.localeCompare(b.month)` on the `YYYY-MM` key strings. -/
def monthLe (a b : MonthEntry) : Bool :=
  a.month.1 < b.month.1 || (a.month.1 == b.month.1 && a.month.2 ≤ b.month.2)

/-- Ordered insertion used to model the final
`.sort((a, b) => a.month.localeCompare(b.month))`; a structurally
recursive sort keeps every definition kernel-evaluable, and only the
produced permutation matters for the stated properties. -/
def insertByMonth (e : MonthEntry) : List MonthEntry → List MonthEntry
  | [] => [e]
  | x :: xs => if monthLe e x then e :: x :: xs else x :: insertByMonth e xs

/-- Sort of the month buckets by key. -/
def sortByMonth : List MonthEntry → List MonthEntry
  | [] => []
  | x :: xs => insertByMonth x (sortByMonth xs)

/-- Embedding of `getMonthlyTrendData`: fold the transactions into month
buckets (insertion order, as `Object.values` preserves it), then sort by
month key. -/
def getMonthlyTrendData (txns : List Transaction) : List MonthEntry :=
  sortByMonth (txns.foldl trendStep [])

/-- Sum of the credit amounts of the transactions falling in month `k`. -/
def creditSumAt (k : Nat × Nat) : List Transaction → ℤ
  | [] => 0
  | t :: ts =>
    (if jsMonthKey t.date = some k ∧ t.transaction_type = TType.credit then
      t.amount else 0) + creditSumAt k ts

/-- Sum of the non-credit amounts of the transactions falling in month
`k` (the source's `else` branch, i.e. debits). -/
def debitSumAt (k : Nat × Nat) : List Transaction → ℤ
  | [] => 0
  | t :: ts =>
    (if jsMonthKey t.date = some k ∧ ¬ t.transaction_type = TType.credit then
      t.amount else 0) + debitSumAt k ts

/-- Bucket lookup by month key (`monthlyData[monthKey]`). -/
def entryAt : List MonthEntry → Nat × Nat → Option MonthEntry
  | [], _ => none
  | e :: es, k => if e.month = k then some e else entryAt es k

/-- Income accumulated so far in the bucket of month `k` (0 when the
bucket does not exist yet). -/
def incomeAt (acc : List MonthEntry) (k : Nat × Nat) : ℤ :=
  match entryAt acc k with
  | some e => e.income
  | none => 0

/-- Expenses accumulated so far in the bucket of month `k`. -/
def expensesAt (acc : List MonthEntry) (k : Nat × Nat) : ℤ :=
  match entryAt acc k with
  | some e => e.expenses
  | none => 0

/-- Key uniqueness of the bucket list — the invariant JavaScript object
keys enjoy by construction. -/
def NodupKeys (acc : List MonthEntry) : Prop :=
  (acc.map MonthEntry.month).Nodup

/-! ## Backend pipeline, modelled from the spec

The backend (`backend/server.py` and `backend/utils/` per the README's
project layout) is not part of the repository snapshot; only its callers
are.  The Extractor, Parser, Classifier, Tax Estimator and Orchestrator
below are therefore modelled from the specification's §4.1–§4.5 and §6–§7
and are marked as such. -/

/-- Modelled from the spec: Document Text Extractor (§4.1; backend
`utils/pdf_parser.py` not in the snapshot).  A pure function of the
document bytes: a parseable PDF yields its ordered text lines, anything
else is the `UnreadableDocument` case.  Readability is modelled as the
`%PDF` magic header, and text extraction as decoding the remaining bytes
into newline-separated lines. -/
def extractLines (doc : List Nat) : Option (List String) :=
  match doc with
  | 37 :: 80 :: 68 :: 70 :: rest =>
    some ((splitSep 10 rest).map (fun chunk => String.mk (chunk.map Char.ofNat)))
  | _ => none

/-- Modelled from the spec: date-token recognition of the Parser (§4.2),
a `dd/mm/yyyy` token with a real day and month. -/
def parseDate (tok : List Char) : Option (Nat × Nat × Nat) :=
  match splitSep '/' tok with
  | [d, m, y] =>
    match parseNatChars d, parseNatChars m, parseNatChars y with
    | some dn, some mn, some yn =>
      if 1 ≤ dn ∧ dn ≤ 31 ∧ 1 ≤ mn ∧ mn ≤ 12 then some (dn, mn, yn) else none
    | _, _, _ => none
  | _ => none

/-- Modelled from the spec: amount-column recognition of the Parser
(§4.2), a decimal number with an optional two-digit fraction, read into
fixed-point hundredths.  Built from digit values only, so every parsed
amount is non-negative by construction. -/
def parseAmount (tok : List Char) : Option ℤ :=
  match splitSep '.' tok with
  | [w] => (parseNatChars w).map (fun n => ((n * 100 : Nat) : ℤ))
  | [w, f] =>
    match parseNatChars w, parseNatChars f with
    | some wn, some fn =>
      if f.length = 2 then some ((wn * 100 + fn : Nat) : ℤ) else none
    | _, _ => none
  | _ => none

/-- Modelled from the spec: the explicit credit/debit marker of the
layout (§4.2 "an explicit sign/marker"). -/
def parseDirTok (tok : List Char) : Option TType :=
  if tok == "CR".data then some TType.credit
  else if tok == "DR".data then some TType.debit
  else none

/-- One raw transaction candidate produced by the Parser (§4.2): date,
description span, amount and direction. -/
structure Candidate where
  date : Nat × Nat × Nat
  description : String
  amount : ℤ
  direction : TType
  deriving DecidableEq, Repr

/-- Modelled from the spec: the line matcher of the Parser (§4.2;
backend `utils/pdf_parser.py` not in the snapshot).  The known layout is
modelled as one representative tabular pattern
`date description… amount CR|DR`; a line is recognizable exactly when it
matches it, and any other line yields no candidate. -/
def parseLine (line : String) : Option Candidate :=
  match (splitSep ' ' line.data).filter (fun t => !t.isEmpty) with
  | [] => none
  | dateTok :: rest =>
    match parseDate dateTok with
    | none => none
    | some d =>
      match rest.reverse with
      | dirTok :: amtTok :: descRev =>
        if descRev.isEmpty then none
        else
          match parseDirTok dirTok, parseAmount amtTok with
          | some dir, some amt =>
            some ⟨d, String.mk (joinSep ' ' descRev.reverse), amt, dir⟩
          | _, _ => none
      | _ => none

/-- Modelled from the spec: the Parser over a line sequence (§4.2) —
recognizable lines become candidates in order, every other line is
skipped without aborting the scan. -/
def parseLines (lines : List String) : List Candidate :=
  lines.filterMap parseLine

/-- Validity of a parsed `(day, month, year)` date: the bound the date
recognizer enforces. -/
def validDate (d : Nat × Nat × Nat) : Prop :=
  1 ≤ d.1 ∧ d.1 ≤ 31 ∧ 1 ≤ d.2.1 ∧ d.2.1 ≤ 12

instance (d : Nat × Nat × Nat) : Decidable (validDate d) := by
  unfold validDate; infer_instance

/-- Whether a line is recognizable by the Parser's layout matcher. -/
def recognizable (line : String) : Bool :=
  (parseLine line).isSome

/-- Substring containment over character lists, the model of the
case-insensitive keyword matching of §4.3. -/
def containsChars (hay needle : List Char) : Bool :=
  match hay with
  | [] => needle.isEmpty
  | _ :: t => needle.isPrefixOf hay || containsChars t needle

/-- Modelled from the spec: the fixed keyword-to-category mapping of the
Classifier (§4.3; backend not in the snapshot), with a representative
table.  Keywords are matched case-insensitively against the
description. -/
def keywordTable : List (List Char × String × String) :=
  [("salary".data, ("Income", "Bank Transfer")),
   ("upi".data, ("Shopping", "UPI")),
   ("atm".data, ("Cash Withdrawal", "ATM")),
   ("rent".data, ("Housing", "Bank Transfer")),
   ("emi".data, ("Loan Payment", "Bank Transfer"))]

/-- First keyword of the table contained in the lower-cased description,
with its category and mode. -/
def keywordMatch (desc : String) : Option (String × String) :=
  (keywordTable.find? (fun kv => containsChars (lowerString desc) kv.1)).map
    (fun kv => kv.2)

/-- Modelled from the spec: the Classifier (§4.3; backend not in the
snapshot).  `ext` is the outcome of the external classification call for
this candidate: `some (category, mode)` on success, `none` on failure or
timeout.  Keyword match first; otherwise the external result; otherwise
the local fallback `("Other", "Unknown")`.  The function is total — an
external failure never fails the transaction. -/
def classify (desc : String) (ext : Option (String × String)) :
    String × String :=
  match keywordMatch desc with
  | some cm => cm
  | none =>
    match ext with
    | some cm => cm
    | none => ("Other", "Unknown")

/-- Upload lifecycle states of an `UploadRecord` (§3). -/
inductive UploadStatus where
  | pending
  | processing
  | completed
  | failed
  deriving DecidableEq, Repr

/-- The response of the upload endpoint: the caller reads
`response.data.transactions_count` (`EnhancedDashboard.js` line 260) and
the upload's final status. -/
structure UploadResponse where
  transactions_count : Nat
  status : UploadStatus
  deriving DecidableEq, Repr

/-- Modelled from the spec: the Ingestion Orchestrator for one document
(§4.5, §6; backend `server.py` not in the snapshot).  Extraction failure
is the fatal `UnreadableDocument` error; otherwise every parsed
candidate is classified (with `ext i` the external-call outcome for the
`i`-th candidate) and persisted, and the upload completes with the
candidate count — zero candidates included. -/
def processDocument (doc : List Nat) (ext : Nat → Option (String × String)) :
    Except String (UploadResponse × List (Candidate × String × String)) :=
  match extractLines doc with
  | none => Except.error "UnreadableDocument"
  | some lines =>
    let cands := parseLines lines
    let classified := cands.enum.map (fun ic =>
      let cm := classify ic.2.description (ext ic.1)
      (ic.2, cm.1, cm.2))
    Except.ok (⟨cands.length, UploadStatus.completed⟩, classified)

/-- What the upload caller receives: the count-and-status record, or the
failure reason string. -/
def submit (doc : List Nat) (ext : Nat → Option (String × String)) :
    Except String UploadResponse :=
  (processDocument doc ext).map Prod.fst

/-- A persisted `TaxCalculation` (§3). -/
structure TaxCalculation where
  gst_amount : ℤ
  itr_amount : ℤ
  tds_amount : ℤ
  estimated_turnover : ℤ
  tax_optimization_tips : List String
  deriving DecidableEq, Repr

/-- Modelled from the spec: the Tax Estimator (§4.4; backend
`utils/tax_calculator.py` not in the snapshot).  `estimated_turnover`
is `total_income` (the gross-credits turnover policy); the GST/ITR/TDS
figures use representative fixed percentage brackets, which §4.4 leaves
as unspecified policy tables; the tips are rule-triggered canned
strings.  Amounts are fixed-point hundredths, so the bracket thresholds
are whole-rupee values times 100. -/
def calculateTax (txns : List Transaction) : TaxCalculation :=
  let income := total_income txns
  let expenses := total_expenses txns
  let turnover := income
  { gst_amount := if 2000000 * 100 < turnover then turnover * 18 / 100 else 0
    itr_amount :=
      if 1000000 * 100 < income then income * 30 / 100
      else if 500000 * 100 < income then income * 20 / 100
      else if 250000 * 100 < income then income * 5 / 100
      else 0
    tds_amount := income * 10 / 100
    estimated_turnover := turnover
    tax_optimization_tips :=
      (if income * 60 / 100 < expenses then
        ["Your expense-to-income ratio is high; review recurring expenses"]
      else []) ++
      ["Invest in tax-saving instruments under Section 80C"] }

/-- Environment state threaded through a pipeline run, to express
re-running explicitly: the run counter advances, and nothing else is
read or written (§4.1: extraction has no side effects and is
restartable). -/
structure RunState where
  runCount : Nat
  deriving DecidableEq, Repr

/-- Modelled from the spec: one run of the Extraction + Parser composite
over a byte content (§8 idempotence property; backend not in the
snapshot).  The output candidate sequence is a function of the bytes
alone. -/
def runExtractParse (st : RunState) (doc : List Nat) :
    RunState × Option (List Candidate) :=
  (⟨st.runCount + 1⟩, (extractLines doc).map parseLines)

/-! ## Theorems -/

/-- C4: in the dashboard KPI summary, the displayed "Tax Due" figure is
exactly `latest_tax.gst_amount + latest_tax.itr_amount` — the
`tds_amount` field is excluded (changing it never changes the display) —
and it is 0 when no latest tax calculation exists. -/
theorem C4_tax_due_display :
    (∀ t : LatestTax, taxDueDisplay (some t) = t.gst_amount + t.itr_amount)
    ∧ taxDueDisplay none = 0
    ∧ (∀ g i d d' u : ℤ,
        taxDueDisplay (some ⟨g, i, d, u⟩) = taxDueDisplay (some ⟨g, i, d', u⟩)) :=
  ⟨fun _ => rfl, rfl, fun _ _ _ _ _ => rfl⟩

/-- C5: only files named `.pdf` (case-insensitively) are accepted — every
entry of the pending list after a selection is either an old entry or has
a `.pdf` name, a selection containing no `.pdf` file leaves the pending
list unchanged, and the single-file handler never sends a non-`.pdf` file
to the upload endpoint. -/
theorem C5_pdf_only_selection :
    (∀ (files : List SelFile) (prev : List PendingFile),
      ∀ e ∈ handleFileSelect files prev, e ∈ prev ∨ isPdfName e.name = true)
    ∧ (∀ (files : List SelFile) (prev : List PendingFile),
        (∀ f ∈ files, isPdfName f.name = false) →
          handleFileSelect files prev = prev)
    ∧ (∀ f g : SelFile,
        handleFileUploadSent (some f) = some g → isPdfName g.name = true) := by
  refine ⟨fun files prev e he => ?_, fun files prev hnone => ?_, fun f g h => ?_⟩
  · simp only [handleFileSelect] at he
    split at he
    · exact Or.inl he
    · rcases List.mem_append.mp he with h1 | h2
      · exact Or.inl h1
      · obtain ⟨f, hf, hfe⟩ := List.mem_map.mp h2
        subst hfe
        exact Or.inr (List.mem_filter.mp hf).2
  · unfold handleFileSelect
    have hnil : files.filter (fun f => isPdfName f.name) = [] := by
      refine List.filter_eq_nil_iff.mpr fun f hf => ?_
      simp [hnone f hf]
    simp [hnil]
  · unfold handleFileUploadSent at h
    by_cases hp : isPdfName f.name
    · simp only [hp, if_true, Option.some.injEq] at h
      exact h ▸ hp
    · simp [hp] at h

/-- C5 witness: selecting a single non-`.pdf` file leaves the empty
pending list unchanged. -/
theorem C5_pdf_only_selection_witness :
    handleFileSelect [⟨"notes.txt", 10⟩] [] = [] :=
  C5_pdf_only_selection.2.1 [⟨"notes.txt", 10⟩] [] (by decide)

/-- Both counters and the ordered request list produced by the
`handleUploadAll` loop: every input file is posted exactly once, in
order, and the two counters partition the inputs. -/
theorem uploadLoop_spec (ok : PendingFile → Bool) :
    ∀ fs : List PendingFile,
      (uploadLoop ok fs).2.2 = fs
      ∧ (uploadLoop ok fs).1 + (uploadLoop ok fs).2.1 = fs.length := by
  intro fs
  induction fs with
  | nil => exact ⟨rfl, rfl⟩
  | cons f fs ih =>
    unfold uploadLoop
    by_cases h : ok f <;> simp [h, ih.1, List.length_cons] <;> omega

/-- C10: for a non-empty pending list, the upload-all loop submits every
pending file exactly once (in order), `successCount + failCount` equals
the number of pending files, and the pending list is cleared if and only
if at least one upload succeeded. -/
theorem C10_upload_all_invariants (pending : List PendingFile)
    (ok : PendingFile → Bool) (h : pending ≠ []) :
    (handleUploadAll pending ok).submitted = pending
    ∧ (handleUploadAll pending ok).successCount
        + (handleUploadAll pending ok).failCount = pending.length
    ∧ ((handleUploadAll pending ok).newPending = []
        ↔ 0 < (handleUploadAll pending ok).successCount) := by
  have hne : pending.isEmpty = false := by
    cases pending with
    | nil => exact absurd rfl h
    | cons a l => rfl
  unfold handleUploadAll
  rw [hne]
  simp only [Bool.false_eq_true, if_false]
  refine ⟨(uploadLoop_spec ok pending).1, (uploadLoop_spec ok pending).2, ?_⟩
  show (if (uploadLoop ok pending).1 > 0 then ([] : List PendingFile)
        else pending) = [] ↔ 0 < (uploadLoop ok pending).1
  by_cases hp : (uploadLoop ok pending).1 > 0
  · rw [if_pos hp]
    exact ⟨fun _ => hp, fun _ => rfl⟩
  · rw [if_neg hp]
    exact ⟨fun habs => absurd habs h, fun hlt => absurd hlt hp⟩

/-- C10 witness: uploading one pending file that succeeds clears the
pending list. -/
theorem C10_upload_all_invariants_witness :
    (handleUploadAll [⟨⟨"a.pdf", 5⟩, "a.pdf"⟩] (fun _ => true)).newPending
      = [] :=
  (C10_upload_all_invariants [⟨⟨"a.pdf", 5⟩, "a.pdf"⟩] (fun _ => true)
    (by decide)).2.2.mpr (by decide)

/-- C1 counterexample: bulk-deleting the five ids 1–5 when id 5 no longer
exists does issue all five delete requests and the other four ids are
deleted on the server, but the caller is shown the generic failure toast,
which carries no success/failure counts — not the claimed report of 4
successes and 1 failure. -/
theorem C1_counterexample :
    reportedCounts
        (handleBulkDelete true [1, 2, 3, 4, 5] (fun i => i != 5)).report
      ≠ some (4, 1)
    ∧ reportedCounts
        (handleBulkDelete true [1, 2, 3, 4, 5] (fun i => i != 5)).report
      = none
    ∧ (handleBulkDelete true [1, 2, 3, 4, 5] (fun i => i != 5)).serverDeleted
      = [1, 2, 3, 4] := by
  decide

/-- C1 (amended): a confirmed bulk delete over a non-empty selection
issues one delete request per selected id — the deletions are independent
per-record operations, and an id's failure does not suppress the others
on the server — but the reported outcome is all-or-nothing rather than a
best-effort count: when every delete succeeds the caller is told the full
selected count was deleted and the selection is cleared; when any delete
fails the caller gets a generic failure report with no counts and the
selection is left unchanged. -/
theorem C1_bulk_delete_amended (selected : List Nat) (ok : Nat → Bool)
    (h : selected ≠ []) :
    (handleBulkDelete true selected ok).requested = selected
    ∧ (handleBulkDelete true selected ok).serverDeleted = selected.filter ok
    ∧ (selected.all ok = true →
        (handleBulkDelete true selected ok).report
            = BulkDeleteReport.deletedAll selected.length
        ∧ (handleBulkDelete true selected ok).newSelected = [])
    ∧ (selected.all ok = false →
        (handleBulkDelete true selected ok).report
            = BulkDeleteReport.failedGeneric
        ∧ (handleBulkDelete true selected ok).newSelected = selected) := by
  have hne : selected.isEmpty = false := by
    cases selected with
    | nil => exact absurd rfl h
    | cons a l => rfl
  unfold handleBulkDelete
  rw [hne]
  by_cases hall : selected.all ok <;> simp [hall]

/-- C1 amended-claim witness: a confirmed two-id bulk delete where both
deletes succeed reports the two deletions. -/
theorem C1_bulk_delete_amended_witness :
    (handleBulkDelete true [7, 8] (fun _ => true)).report
      = BulkDeleteReport.deletedAll 2 :=
  ((C1_bulk_delete_amended [7, 8] (fun _ => true) (by decide)).2.2.1
    (by decide)).1

/-- The bucket update of `applyTxn` never changes the bucket's month. -/
theorem applyTxn_month (t : Transaction) (e : MonthEntry) :
    (applyTxn t e).month = e.month := by
  unfold applyTxn; split <;> rfl

/-- Bucket lookup commutes with the month-preserving update map of
`trendStep`. -/
theorem entryAt_map_update (t : Transaction) (k' : Nat × Nat) :
    ∀ (acc : List MonthEntry) (k : Nat × Nat),
      entryAt (acc.map fun e => if e.month == k' then applyTxn t e else e) k
        = (entryAt acc k).map fun e =>
            if e.month == k' then applyTxn t e else e := by
  intro acc
  induction acc with
  | nil => intro k; rfl
  | cons e es ih =>
    intro k
    have hm : ((if e.month == k' then applyTxn t e else e)).month = e.month := by
      split
      · exact applyTxn_month t e
      · rfl
    simp only [List.map_cons, entryAt, hm]
    by_cases hk : e.month = k
    · rw [if_pos hk, if_pos hk]; rfl
    · rw [if_neg hk, if_neg hk]; exact ih k

/-- A month key that no bucket carries looks up to nothing. -/
theorem entryAt_none_of_not_any (k : Nat × Nat) :
    ∀ acc : List MonthEntry,
      acc.any (fun e => e.month == k) = false → entryAt acc k = none := by
  intro acc
  induction acc with
  | nil => intro _; rfl
  | cons e es ih =>
    intro h
    simp only [List.any_cons, Bool.or_eq_false_iff, beq_eq_false_iff_ne] at h
    simp only [entryAt]
    rw [if_neg h.1]
    exact ih h.2

/-- A month key that some bucket carries looks up to a bucket. -/
theorem entryAt_isSome_of_any (k : Nat × Nat) :
    ∀ acc : List MonthEntry,
      acc.any (fun e => e.month == k) = true → (entryAt acc k).isSome = true := by
  intro acc
  induction acc with
  | nil => intro h; simp at h
  | cons e es ih =>
    intro h
    simp only [entryAt]
    by_cases hk : e.month = k
    · rw [if_pos hk]; rfl
    · rw [if_neg hk]
      simp only [List.any_cons, Bool.or_eq_true_iff, beq_iff_eq] at h
      rcases h with h | h
      · exact absurd h hk
      · exact ih h

/-- The bucket a lookup returns carries the month it was looked up by. -/
theorem entryAt_month (k : Nat × Nat) :
    ∀ (acc : List MonthEntry) (e : MonthEntry),
      entryAt acc k = some e → e.month = k := by
  intro acc
  induction acc with
  | nil => intro e h; exact absurd h (by simp [entryAt])
  | cons x xs ih =>
    intro e h
    simp only [entryAt] at h
    by_cases hk : x.month = k
    · rw [if_pos hk] at h
      cases h; exact hk
    · rw [if_neg hk] at h
      exact ih e h

/-- Lookup distributes over append when the key is found on the left. -/
theorem entryAt_append_some (k : Nat × Nat) (e : MonthEntry) :
    ∀ l₁ l₂ : List MonthEntry,
      entryAt l₁ k = some e → entryAt (l₁ ++ l₂) k = some e := by
  intro l₁
  induction l₁ with
  | nil => intro l₂ h; exact absurd h (by simp [entryAt])
  | cons x xs ih =>
    intro l₂ h
    simp only [entryAt, List.cons_append] at *
    by_cases hk : x.month = k
    · rw [if_pos hk] at h ⊢; exact h
    · rw [if_neg hk] at h ⊢; exact ih l₂ h

/-- Lookup falls through an append when the key is absent on the left. -/
theorem entryAt_append_none (k : Nat × Nat) :
    ∀ l₁ l₂ : List MonthEntry,
      entryAt l₁ k = none → entryAt (l₁ ++ l₂) k = entryAt l₂ k := by
  intro l₁
  induction l₁ with
  | nil => intro l₂ _; rfl
  | cons x xs ih =>
    intro l₂ h
    simp only [entryAt, List.cons_append] at *
    by_cases hk : x.month = k
    · rw [if_pos hk] at h; cases h
    · rw [if_neg hk] at h ⊢; exact ih l₂ h

/-- One `trendStep` adds the transaction's amount to the income of its
month bucket exactly when the transaction is a credit with that month,
and leaves every other bucket's income unchanged. -/
theorem incomeAt_trendStep (acc : List MonthEntry) (t : Transaction)
    (k : Nat × Nat) :
    incomeAt (trendStep acc t) k
      = incomeAt acc k
        + (if jsMonthKey t.date = some k ∧ t.transaction_type = TType.credit
           then t.amount else 0) := by
  cases hkey : jsMonthKey t.date with
  | none => simp [trendStep, hkey]
  | some k' =>
    simp only [trendStep, hkey]
    by_cases hkk : k' = k
    · subst hkk
      by_cases hany : acc.any (fun e => e.month == k') = true
      · rw [if_pos hany]
        unfold incomeAt
        rw [entryAt_map_update]
        cases hent : entryAt acc k' with
        | none =>
          have := entryAt_isSome_of_any k' acc hany
          rw [hent] at this; cases this
        | some e =>
          have hm : e.month = k' := entryAt_month k' acc e hent
          simp only [Option.map_some, hm, beq_self_eq_true, if_true]
          unfold applyTxn
          cases htt : t.transaction_type with
          | credit => simp [htt, hm]
          | debit => simp [htt, hm]
      · rw [if_neg hany]
        have hnone : entryAt acc k' = none :=
          entryAt_none_of_not_any k' acc (by
            cases h : acc.any (fun e => e.month == k') with
            | false => rfl
            | true => exact absurd h hany)
        unfold incomeAt
        rw [entryAt_append_none k' acc _ hnone, hnone]
        have hxm : (applyTxn t ⟨k', 0, 0⟩).month = k' := applyTxn_month t _
        simp only [entryAt, hxm, if_pos rfl]
        unfold applyTxn
        cases htt : t.transaction_type with
        | credit => simp [htt]
        | debit => simp [htt]
    · by_cases hany : acc.any (fun e => e.month == k') = true
      · rw [if_pos hany]
        unfold incomeAt
        rw [entryAt_map_update]
        cases hent : entryAt acc k with
        | none => simp [hkk]
        | some e =>
          have hm : e.month = k := entryAt_month k acc e hent
          simp [hm, hkk, Ne.symm hkk]
      · rw [if_neg hany]
        unfold incomeAt
        cases hent : entryAt acc k with
        | none =>
          rw [entryAt_append_none k acc _ hent]
          have hxm : (applyTxn t ⟨k', 0, 0⟩).month = k' := applyTxn_month t _
          simp only [entryAt, hxm]
          rw [if_neg fun h => hkk h]
          simp [hkk]
        | some e =>
          rw [entryAt_append_some k e acc _ hent]
          simp [hkk]

/-- Dual of `incomeAt_trendStep` for the `else` (non-credit) branch. -/
theorem expensesAt_trendStep (acc : List MonthEntry) (t : Transaction)
    (k : Nat × Nat) :
    expensesAt (trendStep acc t) k
      = expensesAt acc k
        + (if jsMonthKey t.date = some k ∧ ¬ t.transaction_type = TType.credit
           then t.amount else 0) := by
  cases hkey : jsMonthKey t.date with
  | none => simp [trendStep, hkey]
  | some k' =>
    simp only [trendStep, hkey]
    by_cases hkk : k' = k
    · subst hkk
      by_cases hany : acc.any (fun e => e.month == k') = true
      · rw [if_pos hany]
        unfold expensesAt
        rw [entryAt_map_update]
        cases hent : entryAt acc k' with
        | none =>
          have := entryAt_isSome_of_any k' acc hany
          rw [hent] at this; cases this
        | some e =>
          have hm : e.month = k' := entryAt_month k' acc e hent
          simp only [Option.map_some, hm, beq_self_eq_true, if_true]
          unfold applyTxn
          cases htt : t.transaction_type with
          | credit => simp [htt, hm]
          | debit => simp [htt, hm]
      · rw [if_neg hany]
        have hnone : entryAt acc k' = none :=
          entryAt_none_of_not_any k' acc (by
            cases h : acc.any (fun e => e.month == k') with
            | false => rfl
            | true => exact absurd h hany)
        unfold expensesAt
        rw [entryAt_append_none k' acc _ hnone, hnone]
        have hxm : (applyTxn t ⟨k', 0, 0⟩).month = k' := applyTxn_month t _
        simp only [entryAt, hxm, if_pos rfl]
        unfold applyTxn
        cases htt : t.transaction_type with
        | credit => simp [htt]
        | debit => simp [htt]
    · by_cases hany : acc.any (fun e => e.month == k') = true
      · rw [if_pos hany]
        unfold expensesAt
        rw [entryAt_map_update]
        cases hent : entryAt acc k with
        | none => simp [hkk]
        | some e =>
          have hm : e.month = k := entryAt_month k acc e hent
          simp [hm, hkk, Ne.symm hkk]
      · rw [if_neg hany]
        unfold expensesAt
        cases hent : entryAt acc k with
        | none =>
          rw [entryAt_append_none k acc _ hent]
          have hxm : (applyTxn t ⟨k', 0, 0⟩).month = k' := applyTxn_month t _
          simp only [entryAt, hxm]
          rw [if_neg fun h => hkk h]
          simp [hkk]
        | some e =>
          rw [entryAt_append_some k e acc _ hent]
          simp [hkk]

/-- Folding the transaction list accumulates exactly the per-month
credit sums on the income side. -/
theorem incomeAt_foldl (k : Nat × Nat) :
    ∀ (ts : List Transaction) (acc : List MonthEntry),
      incomeAt (ts.foldl trendStep acc) k = incomeAt acc k + creditSumAt k ts := by
  intro ts
  induction ts with
  | nil => intro acc; simp [creditSumAt]
  | cons t ts ih =>
    intro acc
    simp only [List.foldl_cons, creditSumAt]
    rw [ih (trendStep acc t), incomeAt_trendStep]
    ring

/-- Folding the transaction list accumulates exactly the per-month
non-credit sums on the expenses side. -/
theorem expensesAt_foldl (k : Nat × Nat) :
    ∀ (ts : List Transaction) (acc : List MonthEntry),
      expensesAt (ts.foldl trendStep acc) k
        = expensesAt acc k + debitSumAt k ts := by
  intro ts
  induction ts with
  | nil => intro acc; simp [debitSumAt]
  | cons t ts ih =>
    intro acc
    simp only [List.foldl_cons, debitSumAt]
    rw [ih (trendStep acc t), expensesAt_trendStep]
    ring

/-- One `trendStep` keeps the bucket keys unique (buckets are only
created for unseen keys). -/
theorem nodupKeys_trendStep (acc : List MonthEntry) (t : Transaction)
    (h : NodupKeys acc) : NodupKeys (trendStep acc t) := by
  cases hkey : jsMonthKey t.date with
  | none => simpa [trendStep, hkey] using h
  | some k =>
    simp only [trendStep, hkey]
    by_cases hany : acc.any (fun e => e.month == k) = true
    · rw [if_pos hany]
      unfold NodupKeys at *
      have hmap :
          (acc.map fun e => if e.month == k then applyTxn t e else e).map
              MonthEntry.month
            = acc.map MonthEntry.month := by
        rw [List.map_map]
        refine List.map_congr_left fun e _ => ?_
        simp only [Function.comp_apply]
        split
        · exact applyTxn_month t e
        · rfl
      rw [hmap]; exact h
    · rw [if_neg hany]
      unfold NodupKeys at *
      rw [List.map_append]
      refine h.append (List.nodup_singleton _) ?_
      intro m hm hm'
      simp only [List.map_cons, List.map_nil, List.mem_singleton,
        applyTxn_month] at hm'
      rcases List.mem_map.mp hm with ⟨e, he, hme⟩
      exact hany (List.any_eq_true.mpr ⟨e, he, by simp [hme, hm']⟩)

/-- The whole fold keeps the bucket keys unique. -/
theorem nodupKeys_foldl :
    ∀ (ts : List Transaction) (acc : List MonthEntry),
      NodupKeys acc → NodupKeys (ts.foldl trendStep acc) := by
  intro ts
  induction ts with
  | nil => intro acc h; exact h
  | cons t ts ih =>
    intro acc h
    exact ih (trendStep acc t) (nodupKeys_trendStep acc t h)

/-- With unique keys, a bucket in the list is exactly what lookup at its
month returns. -/
theorem entryAt_of_mem_nodup :
    ∀ (acc : List MonthEntry) (e : MonthEntry),
      NodupKeys acc → e ∈ acc → entryAt acc e.month = some e := by
  intro acc
  induction acc with
  | nil => intro e _ he; cases he
  | cons x xs ih =>
    intro e hnd he
    unfold NodupKeys at hnd
    simp only [List.map_cons, List.nodup_cons] at hnd
    rcases List.mem_cons.mp he with rfl | he'
    · simp [entryAt]
    · have hne : x.month ≠ e.month := by
        intro hx
        exact hnd.1 (hx ▸ List.mem_map.mpr ⟨e, he', rfl⟩)
      simp only [entryAt]
      rw [if_neg hne]
      exact ih e hnd.2 he'

/-- Ordered insertion permutes to consing. -/
theorem insertByMonth_perm (e : MonthEntry) :
    ∀ l : List MonthEntry, List.Perm (insertByMonth e l) (e :: l) := by
  intro l
  induction l with
  | nil => exact List.Perm.refl _
  | cons x xs ih =>
    unfold insertByMonth
    split
    · exact List.Perm.refl _
    · exact (ih.cons x).trans (List.Perm.swap e x xs)

/-- The month sort is a permutation of its input. -/
theorem sortByMonth_perm :
    ∀ l : List MonthEntry, List.Perm (sortByMonth l) l := by
  intro l
  induction l with
  | nil => exact List.Perm.refl _
  | cons x xs ih =>
    exact (insertByMonth_perm x (sortByMonth xs)).trans (ih.cons x)

/-- The binary transaction type partitions every amount onto exactly one
side of the aggregates. -/
theorem income_add_expenses (txns : List Transaction) :
    total_income txns + total_expenses txns
      = (txns.map fun t => t.amount).sum := by
  induction txns with
  | nil => rfl
  | cons t ts ih =>
    unfold total_income total_expenses at *
    cases htt : t.transaction_type <;>
    · simp only [List.filter_cons, htt, beq_self_eq_true, if_true,
        List.map_cons, List.sum_cons,
        show (TType.credit == TType.debit) = false from rfl,
        show (TType.debit == TType.credit) = false from rfl,
        Bool.false_eq_true, if_false]
      omega

/-- C3: `total_income` is the sum of credit amounts, `total_expenses`
the sum of debit amounts, `net_cash_flow` is exactly their difference,
the two sides partition the amount total (the binary transaction type
alone decides the side), and every bucket of the dashboard's monthly
trend aggregate carries exactly the credit sum as income and the
non-credit sum as expenses for its month. -/
theorem C3_aggregates (txns : List Transaction) :
    total_income txns
        = ((txns.filter fun t => t.transaction_type == TType.credit).map
            fun t => t.amount).sum
    ∧ total_expenses txns
        = ((txns.filter fun t => t.transaction_type == TType.debit).map
            fun t => t.amount).sum
    ∧ net_cash_flow txns = total_income txns - total_expenses txns
    ∧ total_income txns + total_expenses txns
        = (txns.map fun t => t.amount).sum
    ∧ ∀ e ∈ getMonthlyTrendData txns,
        e.income = creditSumAt e.month txns
        ∧ e.expenses = debitSumAt e.month txns := by
  refine ⟨rfl, rfl, rfl, income_add_expenses txns, fun e he => ?_⟩
  have hmem : e ∈ txns.foldl trendStep [] :=
    (sortByMonth_perm (txns.foldl trendStep [])).mem_iff.mp he
  have hnd : NodupKeys (txns.foldl trendStep []) :=
    nodupKeys_foldl txns [] (by simp [NodupKeys])
  have hent : entryAt (txns.foldl trendStep []) e.month = some e :=
    entryAt_of_mem_nodup _ e hnd hmem
  have hinc := incomeAt_foldl e.month txns []
  have hexp := expensesAt_foldl e.month txns []
  simp only [incomeAt, expensesAt, hent, entryAt, zero_add] at hinc hexp
  exact ⟨hinc, hexp⟩

/-- C3 witness: for the two-transaction set {credit 1000.00, debit
400.00} (amounts in fixed-point hundredths), net cash flow is exactly
600.00 and the single April 2024 trend bucket carries exactly those
sums. -/
theorem C3_aggregates_witness :
    net_cash_flow
        [⟨"15/04/2024", "ACME SALARY", "Income", "Bank", 100000, TType.credit⟩,
         ⟨"20/04/2024", "RENT", "Housing", "Bank", 40000, TType.debit⟩]
      = 60000
    ∧ (⟨(2024, 4), 100000, 40000⟩ : MonthEntry).income
        = creditSumAt (2024, 4)
            [⟨"15/04/2024", "ACME SALARY", "Income", "Bank", 100000,
              TType.credit⟩,
             ⟨"20/04/2024", "RENT", "Housing", "Bank", 40000, TType.debit⟩] := by
  constructor
  · decide
  · exact ((C3_aggregates
      [⟨"15/04/2024", "ACME SALARY", "Income", "Bank", 100000, TType.credit⟩,
       ⟨"20/04/2024", "RENT", "Housing", "Bank", 40000, TType.debit⟩]).2.2.2.2
      ⟨(2024, 4), 100000, 40000⟩ (by decide)).1

/-- A date the recognizer accepts is within the day/month bounds. -/
theorem parseDate_valid (tok : List Char) (d : Nat × Nat × Nat)
    (h : parseDate tok = some d) : validDate d := by
  unfold parseDate at h
  split at h
  · split at h
    · split at h
      · rename_i hcond
        cases h
        exact hcond
      · cases h
    · cases h
  · cases h

/-- An amount the recognizer accepts is non-negative (it is assembled
from digit values only). -/
theorem parseAmount_nonneg (tok : List Char) (a : ℤ)
    (h : parseAmount tok = some a) : 0 ≤ a := by
  unfold parseAmount at h
  split at h
  · rename_i w heq
    cases hw : parseNatChars w with
    | none => rw [hw] at h; cases h
    | some n =>
      rw [hw] at h
      simp at h
      omega
  · split at h
    · split at h
      · cases h
        exact Int.natCast_nonneg _
      · cases h
    · cases h
  · cases h

/-- Every candidate the line matcher produces carries a valid date and a
non-negative amount. -/
theorem parseLine_props (line : String) (c : Candidate)
    (h : parseLine line = some c) : validDate c.date ∧ 0 ≤ c.amount := by
  unfold parseLine at h
  split at h
  · cases h
  · split at h
    · cases h
    · rename_i d hd
      split at h
      · split at h
        · cases h
        · split at h
          · rename_i dir amt hdir hamt
            cases h
            exact ⟨parseDate_valid _ d hd, parseAmount_nonneg _ amt hamt⟩
          · cases h
      · cases h

/-- The Parser yields one candidate per recognizable line. -/
theorem parseLines_length (lines : List String) :
    (parseLines lines).length = (lines.filter recognizable).length := by
  induction lines with
  | nil => rfl
  | cons l ls ih =>
    cases hl : parseLine l with
    | none =>
      simp only [parseLines, List.filterMap_cons, hl, List.filter_cons,
        recognizable, Option.isSome_none, Bool.false_eq_true, if_false]
      exact ih
    | some c =>
      simp only [parseLines, List.filterMap_cons, hl, List.filter_cons,
        recognizable, Option.isSome_some, if_true, List.length_cons]
      exact congrArg (fun n => n + 1) ih

/-- C8: over any extracted line sequence the Parser produces exactly as
many candidates as there are recognizable lines, every candidate has a
valid date, a non-negative amount and a credit/debit direction (the
`direction` field's type), and an unrecognizable line is skipped without
aborting the parse of the remaining lines. -/
theorem C8_parser_candidates (lines : List String) :
    (parseLines lines).length = (lines.filter recognizable).length
    ∧ (∀ c ∈ parseLines lines, validDate c.date ∧ 0 ≤ c.amount)
    ∧ (∀ l : String, parseLine l = none →
        ∀ rest : List String, parseLines (l :: rest) = parseLines rest) := by
  refine ⟨parseLines_length lines, fun c hc => ?_, fun l hl rest => ?_⟩
  · obtain ⟨a, _, hpc⟩ := List.mem_filterMap.mp hc
    exact parseLine_props a c hpc
  · simp [parseLines, List.filterMap_cons, hl]

/-- C8 witness: parsing a one-line statement containing the recognizable
line `01/04/2024 ACME SALARY 1200.50 CR` yields that candidate, whose
date is valid. -/
theorem C8_parser_candidates_witness :
    validDate
      (⟨(1, 4, 2024), "ACME SALARY", 120050, TType.credit⟩ : Candidate).date :=
  ((C8_parser_candidates ["01/04/2024 ACME SALARY 1200.50 CR"]).2.1
    ⟨(1, 4, 2024), "ACME SALARY", 120050, TType.credit⟩ (by decide)).1

/-- C9: re-running the Extraction + Parser composite on the same byte
content — in particular immediately after a first run, from the state
that run produced — yields the identical ordered candidate sequence; the
output does not depend on the run state at all, and parsing preserves
page/line order (it distributes over concatenation of line blocks). -/
theorem C9_pipeline_deterministic :
    (∀ (st : RunState) (doc : List Nat),
      (runExtractParse (runExtractParse st doc).1 doc).2
        = (runExtractParse st doc).2)
    ∧ (∀ (st₁ st₂ : RunState) (doc : List Nat),
        (runExtractParse st₁ doc).2 = (runExtractParse st₂ doc).2)
    ∧ (∀ l₁ l₂ : List String,
        parseLines (l₁ ++ l₂) = parseLines l₁ ++ parseLines l₂) := by
  refine ⟨fun st doc => rfl, fun st₁ st₂ doc => rfl, fun l₁ l₂ => ?_⟩
  simp [parseLines, List.filterMap_append]

/-- C7: a candidate whose description matches no keyword is still
assigned category "Other" and mode "Unknown" when the external
classification call fails; no candidate is dropped (one record is
persisted per parsed candidate) and the upload still completes with
`completed` status; and the response the caller sees never depends on
the external call's outcome. -/
theorem C7_classifier_fallback :
    (∀ desc : String, keywordMatch desc = none →
      classify desc none = ("Other", "Unknown"))
    ∧ (∀ (doc : List Nat) (lines : List String),
        extractLines doc = some lines →
          ∃ recs,
            processDocument doc (fun _ => none)
              = Except.ok
                  (⟨(parseLines lines).length, UploadStatus.completed⟩, recs)
            ∧ recs.length = (parseLines lines).length)
    ∧ (∀ (doc : List Nat) (ext ext' : Nat → Option (String × String)),
        submit doc ext = submit doc ext') := by
  refine ⟨fun desc h => ?_, fun doc lines hex => ?_, fun doc ext ext' => ?_⟩
  · unfold classify
    rw [h]
  · refine ⟨(parseLines lines).enum.map (fun ic =>
      ((ic.2 : Candidate),
        (classify ic.2.description none).1,
        (classify ic.2.description none).2)), ?_, ?_⟩
    · simp [processDocument, hex]
    · simp
  · unfold submit processDocument
    cases hex : extractLines doc <;> simp [hex, Except.map]

/-- C7 witness: a description matching no keyword falls back to
("Other", "Unknown") when the external call fails. -/
theorem C7_classifier_fallback_witness :
    classify "zzz mystery payment" none = ("Other", "Unknown") :=
  C7_classifier_fallback.1 "zzz mystery payment" (by decide)

/-- C2: the upload caller always receives either a transaction count
with a final status or an explicit failure reason string (the result
type admits nothing else); an unreadable document fails with
`UnreadableDocument`; and a readable document none of whose lines is
parseable completes with status `completed` and `transactions_count =
0`, not an error. -/
theorem C2_upload_contract (doc : List Nat)
    (ext : Nat → Option (String × String)) :
    ((∃ r, submit doc ext = Except.ok r)
      ∨ (∃ msg, submit doc ext = Except.error msg))
    ∧ (extractLines doc = none →
        submit doc ext = Except.error "UnreadableDocument")
    ∧ (∀ lines, extractLines doc = some lines →
        (∀ l ∈ lines, parseLine l = none) →
          submit doc ext = Except.ok ⟨0, UploadStatus.completed⟩) := by
  refine ⟨?_, fun hnone => ?_, fun lines hsome hall => ?_⟩
  · cases hex : extractLines doc with
    | none =>
      exact Or.inr ⟨"UnreadableDocument",
        by simp [submit, processDocument, hex, Except.map]⟩
    | some lines =>
      exact Or.inl ⟨⟨(parseLines lines).length, UploadStatus.completed⟩,
        by simp [submit, processDocument, hex, Except.map]⟩
  · simp [submit, processDocument, hnone, Except.map]
  · have hnil : parseLines lines = [] := List.filterMap_eq_nil_iff.mpr hall
    simp [submit, processDocument, hsome, hnil, Except.map]

/-- C2 witness: a readable document whose only extracted line is empty
(hence unparseable) completes with a zero transaction count. -/
theorem C2_upload_contract_witness :
    submit [37, 80, 68, 70] (fun _ => none)
      = Except.ok ⟨0, UploadStatus.completed⟩ :=
  (C2_upload_contract [37, 80, 68, 70] (fun _ => none)).2.2 [""]
    (by decide) (by decide)

/-- C6: the Tax Estimator's `estimated_turnover` equals `total_income`
(the sum of credit amounts) for every transaction set; consequently a
debit transaction never changes the turnover and a credit transaction
raises it by exactly its amount. -/
theorem C6_turnover_policy (txns : List Transaction) :
    (calculateTax txns).estimated_turnover = total_income txns
    ∧ (calculateTax txns).estimated_turnover
        = ((txns.filter fun t => t.transaction_type == TType.credit).map
            fun t => t.amount).sum
    ∧ (∀ t : Transaction, t.transaction_type = TType.debit →
        (calculateTax (txns ++ [t])).estimated_turnover
          = (calculateTax txns).estimated_turnover)
    ∧ (∀ t : Transaction, t.transaction_type = TType.credit →
        (calculateTax (txns ++ [t])).estimated_turnover
          = (calculateTax txns).estimated_turnover + t.amount) := by
  refine ⟨rfl, rfl, fun t ht => ?_, fun t ht => ?_⟩
  · show total_income (txns ++ [t]) = total_income txns
    unfold total_income
    rw [List.filter_append]
    simp [ht, show (TType.debit == TType.credit) = false from rfl]
  · show total_income (txns ++ [t]) = total_income txns + t.amount
    unfold total_income
    rw [List.filter_append]
    simp [ht]

/-- C6 witness: with one credit of 1000.00 and one debit of 400.00
(fixed-point hundredths) the estimated turnover is the gross credits,
1000.00, and appending the debit did not change it. -/
theorem C6_turnover_policy_witness :
    (calculateTax
        ([⟨"15/04/2024", "ACME SALARY", "Income", "Bank", 100000,
            TType.credit⟩]
          ++ [⟨"20/04/2024", "RENT", "Housing", "Bank", 40000,
                TType.debit⟩])).estimated_turnover
      = (calculateTax
          [⟨"15/04/2024", "ACME SALARY", "Income", "Bank", 100000,
            TType.credit⟩]).estimated_turnover
    ∧ (calculateTax
        [⟨"15/04/2024", "ACME SALARY", "Income", "Bank", 100000,
          TType.credit⟩]).estimated_turnover = 100000 :=
  ⟨(C6_turnover_policy
      [⟨"15/04/2024", "ACME SALARY", "Income", "Bank", 100000,
        TType.credit⟩]).2.2.1
    ⟨"20/04/2024", "RENT", "Housing", "Bank", 40000, TType.debit⟩ rfl,
   by decide⟩

end Cognitax
